import Mathlib

/-!
Verification development for the isofit radiative-transfer compositor
(isofit/radiative_transfer/radiative_transfer.py) and the LUT grid builder
(isofit/utils/apply_oe.py, class LUTConfig).

The embedding works over exact rationals.  Per-wavelength arrays are
represented by a single rational (all array operations in the embedded code
act elementwise; a one-wavelength, one-engine compositor exercises exactly
the same control flow and arithmetic).  Fallible Python code is embedded in
the Except monad; the mutable attribute self.L_coupled is threaded as an
explicit state argument.  The merge operation pack_arrays, which is about
concatenation across several engines, is embedded separately with genuine
per-engine arrays.
-/

/-- Python exception outcomes that the embedded code can raise. -/
inductive PyErr where
  | typeError
  | nameError (n : String)
  | attributeError (msg : String)
deriving DecidableEq

/-- The float64 value of np.pi, as an exact rational (884279719003555 * 2 ^ -48). -/
def npPi : ℚ := 884279719003555 / 281474976710656

/-- Modelled from the spec: the finite-difference step eps imported from
isofit.core.common (that module is not part of this repository snapshot).
Section 4.3 of the spec gives the reference scale, about 1e-6 relative. -/
def eps : ℚ := 1 / 1000000

/-- Evaluation of np.isnan on the value returned by the coszen property.
The property returns either a cached number (modelled as some q; exact
rationals have no NaN, so isnan is false) or Python None (modelled as none),
on which np.isnan raises a TypeError. -/
def np_isnan : Option ℚ → Except PyErr Bool
  | none => .error .typeError
  | some _ => .ok false

/-- Radiometric mode of an engine: rt_mode is the string "rdn" or "transm". -/
inductive RtMode where
  | rdn
  | transm
deriving DecidableEq

/-- Geometry of one evaluation.  The field cos_solar_zenith carries the value
of np.cos(np.deg2rad(geom.solar_zenith)), precomputed so that the embedding
stays inside ℚ; cos_i and bg_rfl are the optional attributes geom.cos_i and
geom.bg_rfl (none models Python None). -/
structure Geom where
  cos_solar_zenith : ℚ
  cos_i : Option ℚ
  bg_rfl : Option ℚ

/-- The quantity mapping r returned by an engine query, restricted to the
keys the embedded methods read.  The four coupling-term entries c0..c3 are
the values r[key] for the engine coupling_terms keys, in order; none models
a placeholder value that is not an np.ndarray. -/
structure Quantities where
  sphalb : ℚ
  transm_up_dir : ℚ
  transm_up_dif : ℚ
  transm_down_dir : ℚ
  transm_down_dif : ℚ
  rhoatm : ℚ
  thermal_upwelling : ℚ
  c0 : Option ℚ
  c1 : Option ℚ
  c2 : Option ℚ
  c3 : Option ℚ

/-- The four radiances returned by get_L_coupled. -/
structure LCoupled where
  bi_direct : ℚ
  hemi_direct : ℚ
  direct_hemi : ℚ
  bi_hemi : ℚ
deriving DecidableEq

/-- A one-engine RadiativeTransfer compositor at one wavelength.
coszen_lut holds, per engine, the cached zenith cosine: some v models an
engine whose child.lut contains the key coszen with data v, none an engine
whose lut lacks the key. -/
structure RTModel where
  solar_irr : ℚ
  rt_mode : RtMode
  treat_as_emissive : Bool
  coszen_lut : List (Option ℚ)
  bvec : List String
  statevec_names : List String
  get : List ℚ → Geom → Quantities

/-- The coszen property (radiative_transfer.py lines 163-171): loop over the
engines, return the cached lut coszen of the first engine whose lut has the
key; if no engine has it the loop falls through and Python returns None. -/
def RTModel.coszen (m : RTModel) : Option ℚ :=
  (m.coszen_lut.filterMap id).head?

/-- Method rdn_to_rho (lines 226-240): rho = rdn * pi / (solar_irr * coszen),
where the try/except TypeError falls back from the caller-supplied
solar_irr (None when absent) to the aggregate self.solar_irr, and a None
coszen makes both attempts raise TypeError. -/
def RTModel.rdn_to_rho (m : RTModel) (rdn : ℚ) (solar_irr : Option ℚ) :
    Except PyErr ℚ :=
  match m.coszen with
  | none => .error .typeError
  | some cz =>
    match solar_irr with
    | some si => .ok (rdn * npPi / (si * cz))
    | none => .ok (rdn * npPi / (m.solar_irr * cz))

/-- Method rho_to_rdn (lines 242-256): rdn = (solar_irr * coszen) / pi * rho,
with the same try/except TypeError fallback as rdn_to_rho. -/
def RTModel.rho_to_rdn (m : RTModel) (rho : ℚ) (solar_irr : Option ℚ) :
    Except PyErr ℚ :=
  match m.coszen with
  | none => .error .typeError
  | some cz =>
    match solar_irr with
    | some si => .ok ((si * cz) / npPi * rho)
    | none => .ok ((m.solar_irr * cz) / npPi * rho)

/-- Method get_L_atm (lines 258-282) for the one-engine compositor:
emissive engines contribute r[thermal_upwelling]; otherwise r[rhoatm] is
passed through in rdn mode and converted by rho_to_rdn in transm mode. -/
def RTModel.get_L_atm (m : RTModel) (x_RT : List ℚ) (geom : Geom) :
    Except PyErr ℚ :=
  let r := m.get x_RT geom
  if m.treat_as_emissive then .ok r.thermal_upwelling
  else if m.rt_mode = RtMode.rdn then .ok r.rhoatm
  else m.rho_to_rdn r.rhoatm none

/-- Method get_L_coupled (lines 323-367).  The argument L_coupled is the
retained attribute self.L_coupled.  If any coupling-term entry is not an
array, self.L_coupled is reassigned to the degenerate 2-term value; otherwise
the four scaled coupling terms are APPENDED to the retained list (line 352).
Afterwards entries 0 and 2 of the list are rescaled in place by
cos_i / coszen and entries 0..3 are returned.  The function returns the new
retained list together with the four returned radiances.  The getD default 0
is never read: after either branch the list has at least four entries. -/
def RTModel.get_L_coupled (m : RTModel) (r : Quantities) (coszen cos_i : ℚ)
    (L_coupled : List ℚ) : List ℚ × LCoupled :=
  let L1 : List ℚ :=
    match r.c0, r.c1, r.c2, r.c3 with
    | some a0, some a1, some a2, some a3 =>
      let scale : ℚ → ℚ := fun v =>
        if m.rt_mode = RtMode.transm then m.solar_irr * coszen / npPi * v else v
      L_coupled ++ [scale a0, scale a1, scale a2, scale a3]
    | _, _, _, _ =>
      [r.transm_down_dir, r.transm_down_dir + r.transm_down_dif, 0, 0]
  let L2 := L1.set 0 (L1.getD 0 0 / coszen * cos_i)
  let L3 := L2.set 2 (L2.getD 2 0 / coszen * cos_i)
  (L3, ⟨L3.getD 0 0, L3.getD 1 0, L3.getD 2 0, L3.getD 3 0⟩)

/-- Method calc_rdn (lines 173-224).  The retained buffer self.L_coupled is
passed in and the updated buffer is returned along with the radiance. -/
def RTModel.calc_rdn (m : RTModel) (L_coupled : List ℚ) (x_RT : List ℚ)
    (rfl_dir rfl_dif Ls : ℚ) (geom : Geom) : Except PyErr (List ℚ × ℚ) := do
  let isnan ← np_isnan m.coszen
  let coszen : ℚ := if isnan then geom.cos_solar_zenith else m.coszen.getD 0
  let cos_i : ℚ := match geom.cos_i with | some c => c | none => coszen
  let r := m.get x_RT geom
  let L_atm ← m.get_L_atm x_RT geom
  let s_alb := r.sphalb
  let p := m.get_L_coupled r coszen cos_i L_coupled
  let L_up := Ls * (r.transm_up_dir + r.transm_up_dif)
  let bg_dir : ℚ := match geom.bg_rfl with | some b => b | none => rfl_dir
  let bg_dif : ℚ := match geom.bg_rfl with | some b => b | none => rfl_dif
  return (p.1,
    L_atm
      + (p.2.bi_direct * rfl_dir + p.2.hemi_direct * rfl_dif
          + p.2.direct_hemi * bg_dir + p.2.bi_hemi * bg_dif)
        / (1 - s_alb * bg_dif)
      + L_up)

/-- The loop of drdn_dRTb (lines 465-473) over the declared unknowns,
threading the retained buffer through the successive calc_rdn calls and
collecting the finite-difference rows in order. -/
def RTModel.kbLoop (m : RTModel) (x_RT : List ℚ) (rfl_dir rfl_dif Ls : ℚ)
    (geom : Geom) (rdn : ℚ) :
    List String → List ℚ → Except PyErr (List ℚ × List ℚ)
  | [], st => .ok (st, [])
  | unknown :: rest, st =>
    if unknown = "H2O_ABSCO" ∧ "H2OSTR" ∈ m.statevec_names then do
      let i := m.statevec_names.indexOf "H2OSTR"
      let x_RT_perturb := x_RT.set i (x_RT.getD i 0 * (1 + eps))
      let p ← m.calc_rdn st x_RT_perturb rfl_dir rfl_dif Ls geom
      let q ← m.kbLoop x_RT rfl_dir rfl_dif Ls geom rdn rest p.1
      .ok (q.1, ((p.2 - rdn) / eps) :: q.2)
    else m.kbLoop x_RT rfl_dir rfl_dif Ls geom rdn rest st

/-- Method drdn_dRTb (lines 448-476).  The result is the list of rows of
K_b before the final layout transpose np.array(Kb_RT).T; in the
one-wavelength embedding a row is one rational.  An empty unknown list gives
np.zeros((0, 1)), i.e. no rows; a nonempty unknown list with no H2OSTR state
element gives the single all-zero row np.zeros((1, len(wl))); otherwise the
loop runs. -/
def RTModel.drdn_dRTb (m : RTModel) (L_coupled : List ℚ) (x_RT : List ℚ)
    (rfl_dir rfl_dif Ls : ℚ) (geom : Geom) :
    Except PyErr (List ℚ × List ℚ) :=
  if m.bvec.length = 0 then .ok (L_coupled, [])
  else if m.bvec.length > 0 ∧ "H2OSTR" ∉ m.statevec_names then
    .ok (L_coupled, [0])
  else do
    let p ← m.calc_rdn L_coupled x_RT rfl_dir rfl_dif Ls geom
    m.kbLoop x_RT rfl_dir rfl_dif Ls geom p.2 m.bvec p.1

/-- The two radiometric modes are distinct; used to reduce mode tests in
concrete evaluations. -/
theorem rdn_ne_transm : ¬ (RtMode.rdn = RtMode.transm) := fun h => RtMode.noConfusion h

/-- Concrete quantities: all four coupling terms present and equal to 1,
zero spherical albedo and zero upward transmittances. -/
def qC1 : Quantities := ⟨0, 0, 0, 5, 7, 0, 0, some 1, some 1, some 1, some 1⟩

/-- Concrete geometry with local-incidence cosine 1/2 and no background
reflectance. -/
def geomC1 : Geom := ⟨1, some (1/2), none⟩

/-- Concrete one-engine compositor: cached zenith cosine 1, emissive path
radiance (which is 0 here), rdn radiometric mode. -/
def mC1 : RTModel := ⟨1, RtMode.rdn, true, [some 1], [], [], fun _ _ => qC1⟩

/-- C1: calc_rdn is not idempotent.  On a freshly constructed compositor
(self.L_coupled = []) two calls of calc_rdn with identical inputs return 3
and then 5/2: the second call appends four fresh terms to the retained
buffer but returns entries 0..3, which are the FIRST call values with the
direct terms rescaled by cos_i / coszen a second time.  This exhibits the
shared-buffer defect that the specification (sections 4.2, 8 and 9) requires
fixing. -/
theorem calc_rdn_second_call_differs :
    mC1.calc_rdn [] [] 1 1 0 geomC1 = .ok ([1/2, 1, 1/2, 1], 3)
    ∧ mC1.calc_rdn [1/2, 1, 1/2, 1] [] 1 1 0 geomC1 =
        .ok ([1/4, 1, 1/4, 1, 1, 1, 1, 1], 5/2)
    ∧ (3 : ℚ) ≠ 5/2 := by
  refine ⟨?_, ?_, by norm_num⟩ <;>
    norm_num [RTModel.calc_rdn, RTModel.coszen, RTModel.get_L_atm,
      RTModel.get_L_coupled, np_isnan, mC1, qC1, geomC1,
      Bind.bind, Except.bind, pure, Except.pure, rdn_ne_transm]

/-- The value produced by get_L_atm when the compositor has a cached zenith
cosine cz: the thermal upwelling for emissive engines, the path reflectance
passed through in rdn mode, and the rho_to_rdn conversion in transm mode. -/
def L_atm_val (m : RTModel) (x_RT : List ℚ) (geom : Geom) (cz : ℚ) : ℚ :=
  let r := m.get x_RT geom
  if m.treat_as_emissive then r.thermal_upwelling
  else if m.rt_mode = RtMode.rdn then r.rhoatm
  else m.solar_irr * cz / npPi * r.rhoatm

/-- Helper: with a cached zenith cosine, get_L_atm succeeds and returns
L_atm_val. -/
theorem RTModel.get_L_atm_ok (m : RTModel) (x_RT : List ℚ) (geom : Geom)
    (cz : ℚ) (h : m.coszen = some cz) :
    m.get_L_atm x_RT geom = .ok (L_atm_val m x_RT geom cz) := by
  unfold RTModel.get_L_atm L_atm_val RTModel.rho_to_rdn
  rw [h]
  cases hb : m.treat_as_emissive <;> cases hm : m.rt_mode <;> simp [hm]

/-- C2: on any compositor with a cached zenith cosine, calc_rdn returns
exactly L_atm plus the bracketed coupled sum divided by the spherical-albedo
denominator plus the thermal upward term, with the background reflectances
defaulting to the foreground ones when the geometry supplies none.  The
denominator divides only the bracketed coupled term, never L_atm or L_up. -/
theorem calc_rdn_formula (m : RTModel) (st x_RT : List ℚ)
    (rfl_dir rfl_dif Ls : ℚ) (geom : Geom) (cz : ℚ) (h : m.coszen = some cz) :
    m.calc_rdn st x_RT rfl_dir rfl_dif Ls geom =
      .ok (let r := m.get x_RT geom
           let cos_i : ℚ := match geom.cos_i with | some c => c | none => cz
           let p := m.get_L_coupled r cz cos_i st
           let bg_dir : ℚ := match geom.bg_rfl with | some b => b | none => rfl_dir
           let bg_dif : ℚ := match geom.bg_rfl with | some b => b | none => rfl_dif
           (p.1,
             L_atm_val m x_RT geom cz
               + (p.2.bi_direct * rfl_dir + p.2.hemi_direct * rfl_dif
                   + p.2.direct_hemi * bg_dir + p.2.bi_hemi * bg_dif)
                 / (1 - r.sphalb * bg_dif)
               + Ls * (r.transm_up_dir + r.transm_up_dif))) := by
  have hL := RTModel.get_L_atm_ok m x_RT geom cz h
  simp only [RTModel.calc_rdn, h, np_isnan, hL, Bind.bind, Except.bind,
    Option.getD_some, Bool.false_eq_true, if_false, pure, Except.pure]

/-- Concrete geometry with a supplied background reflectance 1/3. -/
def geomW : Geom := ⟨1, some (1/2), some (1/3)⟩

/-- Witness for C2 at a concrete compositor and geometry: the formula gives
0 + (1/2 * 1 + 1 * 1 + 1/2 * (1/3) + 1 * (1/3)) / (1 - 0) + 0 = 2. -/
theorem calc_rdn_formula_witness :
    mC1.calc_rdn [] [] 1 1 0 geomW = .ok ([1/2, 1, 1/2, 1], 2) := by
  rw [calc_rdn_formula mC1 [] [] 1 1 0 geomW 1 rfl]
  norm_num [RTModel.get_L_coupled, L_atm_val, mC1, qC1, geomW, rdn_ne_transm]

/-- Concrete compositor whose single engine exposes no cached lut coszen. -/
def mC7 : RTModel := ⟨1, RtMode.rdn, true, [none], [], [], fun _ _ => qC1⟩

/-- Concrete compositor whose first engine lacks a cached coszen and whose
next two engines cache 1/2 and 1/3. -/
def mC7b : RTModel :=
  ⟨1, RtMode.rdn, true, [none, some (1/2), some (1/3)], [], [], fun _ _ => qC1⟩

/-- C7: when no engine caches a zenith cosine the coszen property returns
None and np.isnan(None) raises TypeError, so calc_rdn fails instead of
falling back to the cosine of the geometry solar zenith (here a perfectly
valid 1); and when engines do cache values, the first engine found wins. -/
theorem calc_rdn_no_cached_coszen_raises :
    mC7.calc_rdn [] [] 1 1 0 geomC1 = .error .typeError
    ∧ mC7b.coszen = some (1/2) := by
  constructor
  · norm_num [RTModel.calc_rdn, RTModel.coszen, np_isnan, mC7,
      Bind.bind, Except.bind]
  · norm_num [RTModel.coszen, mC7b]

/-- Helper: inside kbLoop, when H2OSTR is a state-vector element, unknowns
other than H2O_ABSCO are skipped without contributing a row, so the loop
result equals the loop over only the H2O_ABSCO occurrences. -/
theorem kbLoop_filter (m : RTModel) (x_RT : List ℚ) (rfl_dir rfl_dif Ls : ℚ)
    (geom : Geom) (rdn : ℚ) (h : "H2OSTR" ∈ m.statevec_names)
    (bv : List String) :
    ∀ st : List ℚ,
      m.kbLoop x_RT rfl_dir rfl_dif Ls geom rdn bv st =
        m.kbLoop x_RT rfl_dir rfl_dif Ls geom rdn
          (bv.filter (fun u => u == "H2O_ABSCO")) st := by
  induction bv with
  | nil => intro st; rfl
  | cons u rest ih =>
    intro st
    by_cases hu : u = "H2O_ABSCO"
    · subst hu
      simp only [List.filter_cons, beq_self_eq_true, if_pos]
      simp only [RTModel.kbLoop, eq_self_iff_true, true_and, h, if_true,
        Bind.bind, Except.bind]
      cases hc : m.calc_rdn st
          (x_RT.set (m.statevec_names.indexOf "H2OSTR")
            (x_RT.getD (m.statevec_names.indexOf "H2OSTR") 0 * (1 + eps)))
          rfl_dir rfl_dif Ls geom with
      | error e => rfl
      | ok p => simp only [ih]
    · have hcond : ¬ (u = "H2O_ABSCO" ∧ "H2OSTR" ∈ m.statevec_names) :=
        fun hand => hu hand.1
      simp only [List.filter_cons, beq_iff_eq, if_neg hu]
      simp only [RTModel.kbLoop, if_neg hcond]
      exact ih st

/-- C6 amended: drdn_dRTb returns no rows for an empty unknown list; a
single all-zero row when unknowns are declared but H2OSTR is not in the
state vector, regardless of which or how many unknowns there are; and
otherwise one finite-difference row per H2O_ABSCO occurrence, every other
unknown being silently skipped with no row at all. -/
theorem drdn_dRTb_unknown_handling (m : RTModel) (st x_RT : List ℚ)
    (rfl_dir rfl_dif Ls : ℚ) (geom : Geom) :
    m.drdn_dRTb st x_RT rfl_dir rfl_dif Ls geom =
      if m.bvec = [] then .ok (st, [])
      else if "H2OSTR" ∉ m.statevec_names then .ok (st, [0])
      else (m.calc_rdn st x_RT rfl_dir rfl_dif Ls geom).bind
        (fun p => m.kbLoop x_RT rfl_dir rfl_dif Ls geom p.2
          (m.bvec.filter (fun u => u == "H2O_ABSCO")) p.1) := by
  unfold RTModel.drdn_dRTb
  by_cases h0 : m.bvec = []
  · simp [h0]
  · have hne : ¬ (m.bvec.length = 0) := fun hl => h0 (List.length_eq_zero.mp hl)
    by_cases h1 : "H2OSTR" ∈ m.statevec_names
    · rw [if_neg hne, if_neg (fun hand => hand.2 h1), if_neg h0,
        if_neg (fun hmem => hmem h1)]
      simp only [Bind.bind, Except.bind]
      cases hc : m.calc_rdn st x_RT rfl_dir rfl_dif Ls geom with
      | error e => rfl
      | ok p => exact kbLoop_filter m x_RT rfl_dir rfl_dif Ls geom p.2 h1 m.bvec p.1
    · have hpos : m.bvec.length > 0 := Nat.pos_of_ne_zero hne
      rw [if_neg hne, if_pos (And.intro hpos h1), if_neg h0, if_pos h1]

/-- Concrete compositor with state vector [H2OSTR] and one declared unknown
FOO that is not H2O_ABSCO. -/
def mC6 : RTModel := ⟨1, RtMode.rdn, true, [some 1], ["FOO"], ["H2OSTR"], fun _ _ => qC1⟩

/-- C6 counterexample: with H2OSTR in the state vector and the single
declared unknown FOO, drdn_dRTb returns NO sensitivity rows at all (the
loop silently skips FOO), not the all-zero row for FOO that the claim
demands. -/
theorem drdn_dRTb_skips_non_h2o_unknown :
    mC6.drdn_dRTb [] [1] 1 1 0 geomC1 = .ok ([1/2, 1, 1/2, 1], []) := by
  have hFOO : ¬ ("FOO" = "H2O_ABSCO") := by decide
  norm_num [RTModel.drdn_dRTb, RTModel.kbLoop, RTModel.calc_rdn, RTModel.coszen,
    RTModel.get_L_atm, RTModel.get_L_coupled, np_isnan, mC6, qC1, geomC1,
    Bind.bind, Except.bind, pure, Except.pure, rdn_ne_transm, hFOO]

/-- C9: with a cached positive zenith cosine and a positive effective
irradiance (caller-supplied, else the aggregate), rdn_to_rho computes
rho = L * pi / (solar_irr * coszen) and the two conversions are exact
inverses in both directions. -/
theorem rdn_rho_roundtrip (m : RTModel) (cz : ℚ) (h : m.coszen = some cz)
    (hcz : 0 < cz) (si : Option ℚ) (hsi : 0 < si.getD m.solar_irr)
    (L rho : ℚ) :
    m.rdn_to_rho L si = .ok (L * npPi / (si.getD m.solar_irr * cz))
    ∧ (m.rdn_to_rho L si).bind (fun x => m.rho_to_rdn x si) = .ok L
    ∧ (m.rho_to_rdn rho si).bind (fun x => m.rdn_to_rho x si) = .ok rho := by
  have hpi : npPi ≠ 0 := by norm_num [npPi]
  have hcz0 : cz ≠ 0 := ne_of_gt hcz
  cases si with
  | none =>
    have hs0 : m.solar_irr ≠ 0 := ne_of_gt (by simpa using hsi)
    refine ⟨?_, ?_, ?_⟩
    · simp only [RTModel.rdn_to_rho, h, Option.getD_none]
    · simp only [RTModel.rdn_to_rho, RTModel.rho_to_rdn, h, Except.bind,
        Except.ok.injEq]
      field_simp
      ring
    · simp only [RTModel.rdn_to_rho, RTModel.rho_to_rdn, h, Except.bind,
        Except.ok.injEq]
      field_simp
  | some s =>
    have hs0 : s ≠ 0 := ne_of_gt (by simpa using hsi)
    refine ⟨?_, ?_, ?_⟩
    · simp only [RTModel.rdn_to_rho, h, Option.getD_some]
    · simp only [RTModel.rdn_to_rho, RTModel.rho_to_rdn, h, Except.bind,
        Except.ok.injEq]
      field_simp
      ring
    · simp only [RTModel.rdn_to_rho, RTModel.rho_to_rdn, h, Except.bind,
        Except.ok.injEq]
      field_simp

/-- Concrete compositor with aggregate irradiance 2 and cached coszen 1. -/
def mC9 : RTModel := ⟨2, RtMode.rdn, false, [some 1], [], [], fun _ _ => qC1⟩

/-- Witness for C9: radiance 3, aggregate irradiance, round trip returns 3. -/
theorem rdn_rho_roundtrip_witness :
    (mC9.rdn_to_rho 3 none).bind (fun x => mC9.rho_to_rdn x none) = .ok 3 :=
  (rdn_rho_roundtrip mC9 1 rfl (by norm_num) none (by norm_num [mC9]) 3 0).2.1

/-- An engine query result: a Python dict mapping quantity name to a
per-wavelength array, embedded as an ordered association list with the
dict key order. -/
abbrev QDict := List (String × List ℚ)

/-- The key list of a quantity dict. -/
def dictKeys (d : QDict) : List String := d.map Prod.fst

/-- Python dict lookup: the value of the first pair carrying the key. -/
def dictGet (d : QDict) (k : String) : Option (List ℚ) :=
  (d.find? (fun p => p.1 == k)).map Prod.snd

/-- Method pack_arrays (radiative_transfer.py lines 507-526): intersect the
key sets of all engine query results, starting from the first result, then
for each surviving key np.hstack the per-engine arrays in engine order. -/
def pack_arrays : List QDict → QDict
  | [] => []
  | d0 :: rest =>
    ((dictKeys d0).filter (fun k => rest.all (fun d => (dictKeys d).contains k))).map
      (fun k => (k, ((d0 :: rest).map (fun d => (dictGet d k).getD [])).flatten))

/-- An engine as seen by get_shared_rtm_quantities at fixed inputs: its
first wavelength RT.wl[0] (the construction-time sort key) and the query
result RT.get(x_RT, geom). -/
structure EngineQ where
  wl0 : ℚ
  q : QDict

/-- The construction-time sort self.rt_engines.sort(key=lambda x: x.wl[0])
(line 113): a stable ascending sort by first wavelength. -/
def sortEngines (es : List EngineQ) : List EngineQ :=
  List.insertionSort (fun a b => a.wl0 ≤ b.wl0) es

instance : IsTotal EngineQ (fun a b => a.wl0 ≤ b.wl0) :=
  ⟨fun a b => le_total a.wl0 b.wl0⟩

instance : IsTrans EngineQ (fun a b => a.wl0 ≤ b.wl0) :=
  ⟨fun _ _ _ hab hbc => le_trans hab hbc⟩

/-- Method get_shared_rtm_quantities (lines 153-161): query every engine of
the sorted engine list and merge with pack_arrays. -/
def get_shared_rtm_quantities (es : List EngineQ) : QDict :=
  pack_arrays ((sortEngines es).map EngineQ.q)

/-- Helper: lookup in a dict built by pairing each key of a list with a
value function. -/
theorem dictGet_map_pair (f : String → List ℚ) (k : String) (l : List String) :
    dictGet (l.map (fun x => (x, f x))) k = if k ∈ l then some (f k) else none := by
  induction l with
  | nil => simp [dictGet]
  | cons x l ih =>
    by_cases hx : x = k
    · subst hx
      simp [dictGet, List.find?_cons_of_pos]
    · have hbeq : (((x, f x) : String × List ℚ).1 == k) = false := by
        simpa using hx
      have hstep : dictGet ((x, f x) :: l.map (fun y => (y, f y))) k =
          dictGet (l.map (fun y => (y, f y))) k := by
        simp [dictGet, List.find?_cons_of_neg, hbeq]
      rw [List.map_cons, hstep, ih]
      by_cases hk : k ∈ l
      · rw [if_pos hk, if_pos (List.mem_cons_of_mem x hk)]
      · rw [if_neg hk, if_neg (by
          simp only [List.mem_cons, hk, or_false]
          exact fun h => hx h.symm)]

/-- Helper: a key is in the key list of a dict exactly when lookup succeeds. -/
theorem dictGet_isSome (d : QDict) (k : String) :
    (dictGet d k).isSome = true ↔ k ∈ dictKeys d := by
  induction d with
  | nil => simp [dictGet, dictKeys]
  | cons p d ih =>
    by_cases hp : p.1 = k
    · subst hp
      simp [dictGet, dictKeys, List.find?_cons_of_pos]
    · have hbeq : (p.1 == k) = false := by simpa using hp
      have hstep : dictGet (p :: d) k = dictGet d k := by
        simp [dictGet, List.find?_cons_of_neg, hbeq]
      rw [hstep, ih]
      simp only [dictKeys, List.map_cons, List.mem_cons]
      constructor
      · exact fun h => Or.inr h
      · intro h
        rcases h with h | h
        · exact absurd h.symm hp
        · exact h

/-- Helper: when every dict carries the key, reading with a default is the
same as collecting the defined values. -/
theorem map_getD_eq_filterMap (k : String) (ds : List QDict)
    (h : ∀ d ∈ ds, k ∈ dictKeys d) :
    ds.map (fun d => (dictGet d k).getD []) = ds.filterMap (fun d => dictGet d k) := by
  induction ds with
  | nil => rfl
  | cons d ds ih =>
    have hd : k ∈ dictKeys d := h d (List.mem_cons_self d ds)
    obtain ⟨v, hv⟩ := Option.isSome_iff_exists.mp ((dictGet_isSome d k).mpr hd)
    rw [List.map_cons, List.filterMap_cons, hv,
      ih (fun e he => h e (List.mem_cons_of_mem d he))]
    simp

/-- Helper: the key list of pack_arrays is the filtered key list of the
first dict. -/
theorem dictKeys_pack_arrays (d0 : QDict) (rest : List QDict) :
    dictKeys (pack_arrays (d0 :: rest)) =
      (dictKeys d0).filter (fun k => rest.all (fun d => (dictKeys d).contains k)) := by
  simp [pack_arrays, dictKeys, List.map_map, Function.comp_def]

/-- Helper: membership in the merged key set is membership in every key set. -/
theorem pack_arrays_keys (d0 : QDict) (rest : List QDict) (k : String) :
    k ∈ dictKeys (pack_arrays (d0 :: rest)) ↔ ∀ d ∈ d0 :: rest, k ∈ dictKeys d := by
  rw [dictKeys_pack_arrays, List.mem_filter]
  simp only [List.all_eq_true, List.mem_cons]
  constructor
  · rintro ⟨h0, hall⟩ d hd
    rcases hd with hd | hd
    · exact hd ▸ h0
    · have := hall d hd
      exact List.elem_iff.mp this
  · intro hall
    refine ⟨hall d0 (Or.inl rfl), fun d hd => ?_⟩
    exact List.elem_iff.mpr (hall d (Or.inr hd))

/-- Helper: the merged value at a shared key is the concatenation, in list
order, of the per-dict values. -/
theorem pack_arrays_get (d0 : QDict) (rest : List QDict) (k : String)
    (h : ∀ d ∈ d0 :: rest, k ∈ dictKeys d) :
    dictGet (pack_arrays (d0 :: rest)) k =
      some (((d0 :: rest).filterMap (fun d => dictGet d k)).flatten) := by
  have hmem : k ∈ (dictKeys d0).filter
      (fun x => rest.all (fun d => (dictKeys d).contains x)) := by
    rw [← dictKeys_pack_arrays]
    exact (pack_arrays_keys d0 rest k).mpr h
  rw [pack_arrays, dictGet_map_pair, if_pos hmem, map_getD_eq_filterMap k _ h]

/-- C3: for a nonempty engine list, the compositor sorts the engines
ascending by first wavelength, and the merged quantity mapping of
get_shared_rtm_quantities has exactly the keys common to every engine
result, each mapped to the per-engine arrays concatenated in the sorted
engine order. -/
theorem pack_arrays_intersection_concat (es : List EngineQ) (h : es ≠ []) :
    List.Sorted (· ≤ ·) ((sortEngines es).map EngineQ.wl0)
    ∧ (∀ k, k ∈ dictKeys (get_shared_rtm_quantities es) ↔
        ∀ e ∈ sortEngines es, k ∈ dictKeys e.q)
    ∧ ∀ k, (∀ e ∈ sortEngines es, k ∈ dictKeys e.q) →
        dictGet (get_shared_rtm_quantities es) k =
          some (((sortEngines es).filterMap (fun e => dictGet e.q k)).flatten) := by
  have hsorted : List.Sorted (fun a b : EngineQ => a.wl0 ≤ b.wl0) (sortEngines es) :=
    List.sorted_insertionSort _ es
  have hne : sortEngines es ≠ [] := by
    intro hnil
    apply h
    have := List.perm_insertionSort (fun a b : EngineQ => a.wl0 ≤ b.wl0) es
    rw [sortEngines] at hnil
    rw [hnil] at this
    exact this.symm.eq_nil
  obtain ⟨e0, es2, hcons⟩ := List.exists_cons_of_ne_nil hne
  refine ⟨List.Pairwise.map EngineQ.wl0 (fun a b hab => hab) hsorted, ?_, ?_⟩
  · intro k
    rw [get_shared_rtm_quantities, hcons, List.map_cons,
      pack_arrays_keys e0.q (es2.map EngineQ.q) k, ← List.map_cons, ← hcons]
    exact List.forall_mem_map
  · intro k hk
    rw [get_shared_rtm_quantities, hcons, List.map_cons]
    rw [pack_arrays_get e0.q (es2.map EngineQ.q) k (by
      intro d hd
      rcases List.mem_cons.mp hd with hd | hd
      · exact hd ▸ hk e0 (hcons ▸ List.mem_cons_self e0 es2)
      · obtain ⟨e, he, rfl⟩ := List.mem_map.mp hd
        exact hk e (hcons ▸ List.mem_cons_of_mem e0 he))]
    rw [← List.map_cons, List.filterMap_map, ← hcons]
    rfl

/-- Two concrete engines, given in unsorted order: the engine with first
wavelength 2 carries keys sphalb and extra, the engine with first
wavelength 1 carries only sphalb. -/
def esW : List EngineQ :=
  [⟨2, [("sphalb", [5]), ("extra", [9])]⟩, ⟨1, [("sphalb", [3])]⟩]

/-- Witness for C3: the merged sphalb value concatenates the two engine
segments in ascending-wavelength order, [3] before [5]. -/
theorem pack_arrays_intersection_concat_witness :
    dictGet (get_shared_rtm_quantities esW) "sphalb" = some [3, 5] := by
  have hne : esW ≠ [] := by simp [esW]
  have hsort : sortEngines esW = [⟨1, [("sphalb", [3])]⟩, ⟨2, [("sphalb", [5]), ("extra", [9])]⟩] := by
    norm_num [sortEngines, List.insertionSort, List.orderedInsert, esW]
  have hmem : ∀ e ∈ sortEngines esW, "sphalb" ∈ dictKeys e.q := by
    rw [hsort]
    intro e he
    rcases List.mem_cons.mp he with he | he
    · subst he; norm_num [dictKeys]
    · rcases List.mem_cons.mp he with he | he
      · subst he; norm_num [dictKeys]
      · simp at he
  have h := (pack_arrays_intersection_concat esW hne).2.2 "sphalb" hmem
  rw [h, hsort]
  norm_num [dictGet, List.find?, List.filterMap]

/-- Names bound and resolvable at the raise site inside
RadiativeTransfer.__init__ (radiative_transfer.py line 86): module imports
and globals, enclosing definitions, and the locals assigned before the
raise.  The name RTE is not among them: it is never defined anywhere in the
module (the engine instance assigned later, at line 96, is the lowercase
rte). -/
def raiseSiteScope : List String :=
  ["logging", "SimpleNamespace", "np", "eps", "Engines", "Logger",
   "confPriority", "RadiativeTransfer", "ext550_to_vis",
   "self", "full_config", "config", "confIT", "idx", "confRT", "params"]

/-- Python name resolution for an interpolated f-string expression: an
unbound name raises NameError. -/
def resolveName (n : String) : Except PyErr Unit :=
  if raiseSiteScope.contains n then .ok () else .error (.nameError n)

/-- Rendering of a Python name list, used for the valid engine set. -/
def renderNames : List String → String
  | [] => ""
  | [n] => n
  | n :: rest => n ++ ", " ++ renderNames rest

/-- Evaluation of the f-string at line 86: each interpolation is resolved
left to right, so the message is only produced if both confRT.engine_name
and RTE resolve. -/
def buildInvalidEngineMessage (engineName : String) (engines : List String) :
    Except PyErr String := do
  let _ ← resolveName "confRT"
  let _ ← resolveName "RTE"
  .ok ("Invalid radiative transfer engine choice. Got: " ++ engineName
    ++ "; Must be one of: " ++ renderNames engines)

/-- The engine-name validation at construction (lines 84-87): engine names
outside the registry should raise AttributeError with the offending and the
valid names, but building that message first evaluates the interpolated
name RTE. -/
def rtInitEngineCheck (engineName : String) (engines : List String) :
    Except PyErr Unit :=
  if engines.contains engineName then .ok ()
  else
    match buildInvalidEngineMessage engineName engines with
    | .error e => .error e
    | .ok msg => .error (.attributeError msg)

/-- The message a Python exception prints. -/
def pyErrMessage : PyErr → String
  | .typeError => "TypeError"
  | .nameError n => "name " ++ n ++ " is not defined"
  | .attributeError m => m

/-- Substring test on character lists, used to state what an error message
does and does not mention. -/
def containsChars (s sub : List Char) : Bool :=
  (List.range (s.length + 1)).any (fun i => ((s.drop i).take sub.length) == sub)

/-- C5: constructing with the unrecognized engine name BAD_ENGINE raises,
but the raised exception is NameError on the undefined message
interpolation RTE, whose message mentions neither the invalid name nor any
member of the valid engine set. -/
theorem invalid_engine_raises_nameerror :
    rtInitEngineCheck "BAD_ENGINE"
        ["KernelFlowsGP", "ModtranRT", "SixSRT", "SimulatedModtranRT"] =
      .error (.nameError "RTE")
    ∧ pyErrMessage (.nameError "RTE") = "name RTE is not defined"
    ∧ containsChars (pyErrMessage (.nameError "RTE")).data "BAD_ENGINE".data = false
    ∧ ∀ e ∈ ["KernelFlowsGP", "ModtranRT", "SixSRT", "SimulatedModtranRT"],
        containsChars (pyErrMessage (.nameError "RTE")).data e.data = false := by
  refine ⟨by rfl, by rfl, by decide, by decide⟩

/-- A configuration object as probed by confPriority: an attribute table
mapping attribute name to its value, where a pair with value none models an
attribute that exists but holds Python None. -/
abbrev PyConfig := List (String × Option ℚ)

/-- Python hasattr: the attribute exists, whatever its value. -/
def pyHasattr (c : PyConfig) (k : String) : Bool :=
  c.any (fun p => p.1 == k)

/-- Python getattr on an existing attribute: the stored value, which may be
None. -/
def pyGetattr (c : PyConfig) (k : String) : Option ℚ :=
  (c.find? (fun p => p.1 == k)).bind Prod.snd

/-- The loop body of confPriority (radiative_transfer.py lines 43-49) with
the running variable value: if the config has the attribute, value is
overwritten with it and the loop breaks when it is not None. -/
def confPriorityAux (k : String) (value : Option ℚ) : List PyConfig → Option ℚ
  | [] => value
  | c :: rest =>
    if pyHasattr c k then
      match pyGetattr c k with
      | some x => some x
      | none => confPriorityAux k none rest
    else confPriorityAux k value rest

/-- Function confPriority (lines 35-49): first non-None value of the key
across the config list, None otherwise. -/
def confPriority (k : String) (configs : List PyConfig) : Option ℚ :=
  confPriorityAux k none configs

/-- C10: confPriority returns the value of the first config holding the
attribute with a non-None value, and None when no config does; a missing
attribute and an attribute set to None are treated identically. -/
theorem confPriority_first_non_none (k : String) (configs : List PyConfig) :
    confPriority k configs = (configs.filterMap (fun c => pyGetattr c k)).head? := by
  rw [confPriority]
  induction configs with
  | nil => rfl
  | cons c rest ih =>
    rw [confPriorityAux, List.filterMap_cons]
    by_cases hc : pyHasattr c k = true
    · rw [if_pos hc]
      cases hg : pyGetattr c k with
      | some x => simp [hg]
      | none => simp [hg, ih]
    · rw [if_neg hc]
      have hnone : pyGetattr c k = none := by
        rw [pyGetattr]
        cases hf : c.find? (fun p => p.1 == k) with
        | none => rfl
        | some p =>
          exfalso
          apply hc
          rw [pyHasattr, List.any_eq_true]
          exact ⟨p, List.mem_of_find?_eq_some hf, by
            have := List.find?_some hf
            exact this⟩
      rw [hnone, ih]

/-- Round half to even at integer resolution, as np.round does. -/
def roundHalfEven (x : ℚ) : ℤ :=
  if x - ⌊x⌋ < 1/2 then ⌊x⌋
  else if 1/2 < x - ⌊x⌋ then ⌊x⌋ + 1
  else if Even ⌊x⌋ then ⌊x⌋ else ⌊x⌋ + 1

/-- Evaluation of np.round(x, 4): round to four decimal places. -/
def np_round4 (x : ℚ) : ℚ := (roundHalfEven (x * 10000) : ℚ) / 10000

/-- Evaluation of np.linspace(a, b, num): num evenly spaced points from a to
b, endpoints included; num = 1 gives [a]; numpy rejects negative num (the
claims never reach that case, modelled as the empty list). -/
def linspace (a b : ℚ) (num : ℤ) : List ℚ :=
  if num ≤ 0 then []
  else if num = 1 then [a]
  else (List.range num.toNat).map (fun k => a + (b - a) * (k : ℚ) / ((num : ℚ) - 1))

/-- Method LUTConfig.get_grid (apply_oe.py lines 940-964): None for zero
spacing; otherwise ceil((max-min)/spacing)+1 points from min to max,
rounded to 4 decimals when min_spacing exceeds 0.0001, collapsed to None
when only one point remains or the adjacent spacing is below min_spacing.
An empty linspace would make Python raise IndexError at grid[1]; it cannot
arise for positive spacing and min at most max. -/
def get_grid (minval maxval spacing min_spacing : ℚ) : Option (List ℚ) :=
  if spacing = 0 then none
  else
    let num : ℤ := ⌈(maxval - minval) / spacing⌉ + 1
    let grid0 := linspace minval maxval num
    let grid := if 1/10000 < min_spacing then grid0.map np_round4 else grid0
    match grid with
    | [] => none
    | [_] => none
    | a :: b :: _ => if |b - a| < min_spacing then none else some grid

/-- The grid of section 4.4 of the specification, written from its words:
point count ceil((max-min)/spacing)+1, an evenly spaced sequence, rounding
to 4 decimal places when min_spacing exceeds 0.0001, and no grid when the
count is 1 or the adjacent spacing falls below min_spacing. -/
def gridPerSpec (minval maxval spacing min_spacing : ℚ) : Option (List ℚ) :=
  if spacing = 0 then none
  else
    let count : ℤ := ⌈(maxval - minval) / spacing⌉ + 1
    let pts0 : List ℚ := (List.range count.toNat).map
      (fun k => minval + (maxval - minval) * (k : ℚ) / ((count : ℚ) - 1))
    let pts := if 1/10000 < min_spacing then pts0.map np_round4 else pts0
    if count = 1 then none
    else
      match pts with
      | p0 :: p1 :: _ => if |p1 - p0| < min_spacing then none else some pts
      | _ => none

/-- Helper: the two ways of writing the collapse test, by three-arm match
or by two-arm match, agree on every list. -/
theorem grid_match_eq (g : List ℚ) (ms : ℚ) :
    (match g with
     | [] => none
     | [_] => none
     | a :: b :: _ => if |b - a| < ms then none else some g) =
    (match g with
     | p0 :: p1 :: _ => if |p1 - p0| < ms then none else some g
     | _ => none) := by
  match g with
  | [] => rfl
  | [a] => rfl
  | a :: b :: t => rfl

/-- C8: get_grid realizes the specified grid construction (zero spacing
means no grid; otherwise the ceil-count evenly spaced rounded sequence with
the two collapse rules), and on the two reference inputs it returns
[0,2,4,6,8,10] and no grid respectively. -/
theorem get_grid_spec :
    (∀ mn mx ms : ℚ, get_grid mn mx 0 ms = none)
    ∧ (∀ mn mx s ms : ℚ, 0 < s → mn ≤ mx →
        get_grid mn mx s ms = gridPerSpec mn mx s ms)
    ∧ get_grid 0 10 2 (1/10) = some [0, 2, 4, 6, 8, 10]
    ∧ get_grid 0 (1/20) 1 (1/10) = none := by
  refine ⟨fun mn mx ms => by rw [get_grid, if_pos rfl], ?_, ?_, ?_⟩
  · intro mn mx s ms hs hm
    have hs0 : s ≠ 0 := ne_of_gt hs
    have hceil : 0 ≤ ⌈(mx - mn) / s⌉ :=
      Int.ceil_nonneg (div_nonneg (by linarith) (le_of_lt hs))
    have hle : ¬ (⌈(mx - mn) / s⌉ + 1 ≤ 0) := by omega
    simp only [get_grid, gridPerSpec, linspace]
    rw [if_neg hs0, if_neg hs0, if_neg hle]
    by_cases h1 : ⌈(mx - mn) / s⌉ + 1 = 1
    · rw [if_pos h1, if_pos h1]
      by_cases hr : 1/10000 < ms
      · rw [if_pos hr]
        rfl
      · rw [if_neg hr]
    · rw [if_neg h1, if_neg h1]
      by_cases hr : 1/10000 < ms
      · rw [if_pos hr]
        exact grid_match_eq _ ms
      · rw [if_neg hr]
        exact grid_match_eq _ ms
  · have hceil : ⌈((10:ℚ) - 0) / 2⌉ = (5:ℤ) := by
      rw [Int.ceil_eq_iff]; norm_num
    have hlin : linspace 0 10 ((5:ℤ) + 1) = [0, 2, 4, 6, 8, 10] := by
      rw [linspace, if_neg (by norm_num), if_neg (by norm_num)]
      rw [show ((5:ℤ) + 1).toNat = 6 from rfl,
        show List.range 6 = [0, 1, 2, 3, 4, 5] from rfl]
      norm_num
    have hround : [(0:ℚ), 2, 4, 6, 8, 10].map np_round4 = [0, 2, 4, 6, 8, 10] := by
      simp only [List.map_cons, List.map_nil, np_round4, roundHalfEven]
      norm_num
    simp only [get_grid, hceil, hlin]
    rw [if_neg (by norm_num : ¬ ((2:ℚ) = 0)),
      if_pos (by norm_num : (1:ℚ)/10000 < 1/10), hround]
    have habs : |(2:ℚ) - 0| = 2 := by
      rw [show (2:ℚ) - 0 = 2 by norm_num]
      exact abs_of_nonneg (by norm_num)
    show (if |(2:ℚ) - 0| < 1/10 then none else some [(0:ℚ), 2, 4, 6, 8, 10])
      = some [0, 2, 4, 6, 8, 10]
    rw [if_neg (by rw [habs]; norm_num)]
  · have hceil : ⌈((1:ℚ)/20 - 0) / 1⌉ = (1:ℤ) := by
      rw [Int.ceil_eq_iff]; norm_num
    have hlin : linspace 0 (1/20) ((1:ℤ) + 1) = [0, 1/20] := by
      rw [linspace, if_neg (by norm_num), if_neg (by norm_num)]
      rw [show ((1:ℤ) + 1).toNat = 2 from rfl, show List.range 2 = [0, 1] from rfl]
      norm_num
    have hround : [(0:ℚ), 1/20].map np_round4 = [0, 1/20] := by
      simp only [List.map_cons, List.map_nil, np_round4, roundHalfEven]
      norm_num
    simp only [get_grid, hceil, hlin]
    rw [if_neg (by norm_num : ¬ ((1:ℚ) = 0)),
      if_pos (by norm_num : (1:ℚ)/10000 < 1/10), hround]
    have habs : |(1:ℚ)/20 - 0| = 1/20 := by
      rw [show (1:ℚ)/20 - 0 = 1/20 by norm_num]
      exact abs_of_nonneg (by norm_num)
    show (if |(1:ℚ)/20 - 0| < 1/10 then none else some [(0:ℚ), 1/20]) = none
    rw [if_pos (by rw [habs]; norm_num)]

/-- Witness for C8: the characterization clause applied at the concrete
input (0, 10, 2, 1/10), whose hypotheses hold. -/
theorem get_grid_spec_witness :
    (0:ℚ) < 2 ∧ (0:ℚ) ≤ 10 ∧ get_grid 0 10 2 (1/10) = gridPerSpec 0 10 2 (1/10) :=
  ⟨by norm_num, by norm_num,
    get_grid_spec.2.1 0 10 2 (1/10) (by norm_num) (by norm_num)⟩

/-- Residue of an angle in degrees within [0, 360). -/
def degMod360 (a : ℚ) : ℚ := a - 360 * ⌊a / 360⌋

/-- Sign test sin(deg2rad a) > 0, decided exactly by the residue: the sine
of a degrees is positive exactly when the residue lies in (0, 180). -/
def sinDegPos (a : ℚ) : Bool := decide (0 < degMod360 a ∧ degMod360 a < 180)

/-- Sign test sin(deg2rad a) < 0: residue in (180, 360). -/
def sinDegNeg (a : ℚ) : Bool := decide (180 < degMod360 a ∧ degMod360 a < 360)

/-- Sign test cos(deg2rad a) > 0: residue in [0, 90) or (270, 360). -/
def cosDegPos (a : ℚ) : Bool := decide (degMod360 a < 90 ∨ 270 < degMod360 a)

/-- Sign test cos(deg2rad a) < 0: residue in (90, 270). -/
def cosDegNeg (a : ℚ) : Bool := decide (90 < degMod360 a ∧ degMod360 a < 270)

/-- Quadrant occupancy quadrants[1,0]: some angle with positive cosine and
positive sine (apply_oe.py line 1005). -/
def q10 (l : List ℚ) : Bool := l.any (fun a => cosDegPos a && sinDegPos a)

/-- Quadrant occupancy quadrants[1,1]: positive cosine, negative sine. -/
def q11 (l : List ℚ) : Bool := l.any (fun a => cosDegPos a && sinDegNeg a)

/-- Quadrant occupancy quadrants[0,0]: negative cosine, positive sine. -/
def q00 (l : List ℚ) : Bool := l.any (fun a => cosDegNeg a && sinDegPos a)

/-- Quadrant occupancy quadrants[0,1]: negative cosine, negative sine. -/
def q01 (l : List ℚ) : Bool := l.any (fun a => cosDegNeg a && sinDegNeg a)

/-- The value np.sum(quadrants): how many of the four quadrant cells hold
data. -/
def quadrantsSum (l : List ℚ) : ℕ :=
  (q10 l).toNat + (q11 l).toNat + (q00 l).toNat + (q01 l).toNat

/-- Evaluation of np.min on a nonempty array (np.min rejects an empty one;
the claims never evaluate it there, modelled as 0). -/
def minList : List ℚ → ℚ
  | [] => 0
  | a :: rest => rest.foldl min a

/-- Evaluation of np.max on a nonempty array. -/
def maxList : List ℚ → ℚ
  | [] => 0
  | a :: rest => rest.foldl max a

/-- Result of get_angular_grid: no grid, an explicit grid, a single center
angle, or the statistical clustering fallback whose output is produced by
the external sklearn GaussianMixture fit and is outside this embedding
(the claims under study never reach it). -/
inductive AngularResult where
  | noGrid
  | grid (g : List ℚ)
  | clusterFit (num_points : ℤ)
deriving DecidableEq

/-- Method LUTConfig.get_angular_grid (apply_oe.py lines 966-1082), up to
the GMM fallback which is kept abstract.  For compact data (fewer than 3
occupied quadrant cells) with a true grid requested, the branch where both
positive-cosine cells are occupied (the data crosses the 0-degree line)
adds 180 to every angle, applies get_grid to the shifted min and max, and
subtracts 180 from the result; otherwise get_grid runs on the raw min and
max. -/
def get_angular_grid (angle_data_input : List ℚ) (spacing min_spacing : ℚ)
    (isRadians : Bool) : AngularResult :=
  if spacing = 0 then .noGrid
  else
    let angle_data :=
      if isRadians then angle_data_input.map (fun a => a * 180 / npPi)
      else angle_data_input
    if quadrantsSum angle_data < 3 ∧ spacing ≠ -1 then
      if q10 angle_data && q11 angle_data then
        match get_grid (minList (angle_data.map (fun a => a + 180)))
            (maxList (angle_data.map (fun a => a + 180))) spacing min_spacing with
        | none => .noGrid
        | some g => .grid (g.map (fun x => x - 180))
      else
        match get_grid (minList angle_data) (maxList angle_data)
            spacing min_spacing with
        | none => .noGrid
        | some g => .grid g
    else
      .clusterFit (if spacing = -1 then 1 else ⌈360 / spacing⌉)

/-- Helper: rounding commutes with adding the even integer 1800000. -/
theorem roundHalfEven_add_1800000 (q : ℚ) :
    roundHalfEven (q + 1800000) = roundHalfEven q + 1800000 := by
  have hf : ⌊q + (1800000:ℚ)⌋ = ⌊q⌋ + 1800000 := by
    have h := Int.floor_add_int q (1800000 : ℤ)
    push_cast at h
    exact h
  have he : Even (⌊q⌋ + 1800000) ↔ Even ⌊q⌋ := by
    have h18 : Even (1800000:ℤ) := ⟨900000, by norm_num⟩
    constructor
    · intro h
      have := h.sub h18
      simpa using this
    · intro h
      exact h.add h18
  rw [roundHalfEven, roundHalfEven, hf]
  have hd : q + (1800000:ℚ) - ((⌊q⌋ + 1800000 : ℤ) : ℚ) = q - ⌊q⌋ := by
    push_cast
    ring
  rw [hd]
  by_cases h1 : q - ⌊q⌋ < 1/2
  · rw [if_pos h1, if_pos h1]
  · rw [if_neg h1, if_neg h1]
    by_cases h2 : 1/2 < q - ⌊q⌋
    · rw [if_pos h2, if_pos h2]
      ring
    · rw [if_neg h2, if_neg h2]
      by_cases h3 : Even ⌊q⌋
      · rw [if_pos (he.mpr h3), if_pos h3]
      · rw [if_neg (fun hc => h3 (he.mp hc)), if_neg h3]
        ring

/-- Helper: np.round(x, 4) commutes with adding 180. -/
theorem np_round4_add_180 (x : ℚ) : np_round4 (x + 180) = np_round4 x + 180 := by
  rw [np_round4, np_round4, show (x + 180) * 10000 = x * 10000 + 1800000 by ring,
    roundHalfEven_add_1800000]
  push_cast
  ring

/-- Helper: linspace commutes with shifting both endpoints by 180. -/
theorem linspace_add_180 (a b : ℚ) (n : ℤ) :
    linspace (a + 180) (b + 180) n = (linspace a b n).map (fun x => x + 180) := by
  rw [linspace, linspace]
  by_cases h0 : n ≤ 0
  · rw [if_pos h0, if_pos h0]
    rfl
  · rw [if_neg h0, if_neg h0]
    by_cases h1 : n = 1
    · rw [if_pos h1, if_pos h1]
      rfl
    · rw [if_neg h1, if_neg h1, List.map_map]
      apply List.map_congr_left
      intro k _
      simp only [Function.comp_apply]
      ring

/-- Helper: get_grid commutes with shifting both endpoints by 180. -/
theorem get_grid_add_180 (a b s ms : ℚ) :
    get_grid (a + 180) (b + 180) s ms =
      (get_grid a b s ms).map (List.map (fun x => x + 180)) := by
  simp only [get_grid]
  by_cases hs : s = 0
  · rw [if_pos hs, if_pos hs]
    rfl
  · rw [if_neg hs, if_neg hs,
      show b + 180 - (a + 180) = b - a by ring, linspace_add_180]
    by_cases hr : 1/10000 < ms
    · rw [if_pos hr, if_pos hr]
      have hcomm : ((linspace a b (⌈(b - a) / s⌉ + 1)).map
            (fun x => x + 180)).map np_round4 =
          ((linspace a b (⌈(b - a) / s⌉ + 1)).map np_round4).map
            (fun x => x + 180) := by
        rw [List.map_map, List.map_map]
        apply List.map_congr_left
        intro x _
        simp only [Function.comp_apply]
        exact np_round4_add_180 x
      rw [hcomm]
      cases (linspace a b (⌈(b - a) / s⌉ + 1)).map np_round4 with
      | nil => rfl
      | cons p t =>
        cases t with
        | nil => rfl
        | cons p2 t2 =>
          simp only [List.map_cons]
          rw [show p2 + 180 - (p + 180) = p2 - p by ring]
          by_cases hab : |p2 - p| < ms
          · rw [if_pos hab, if_pos hab]
            rfl
          · rw [if_neg hab, if_neg hab]
            rfl
    · rw [if_neg hr, if_neg hr]
      cases linspace a b (⌈(b - a) / s⌉ + 1) with
      | nil => rfl
      | cons p t =>
        cases t with
        | nil => rfl
        | cons p2 t2 =>
          simp only [List.map_cons]
          rw [show p2 + 180 - (p + 180) = p2 - p by ring]
          by_cases hab : |p2 - p| < ms
          · rw [if_pos hab, if_pos hab]
            rfl
          · rw [if_neg hab, if_neg hab]
            rfl

/-- Helper: a min fold commutes with adding a constant. -/
theorem foldl_min_map_add (c : ℚ) : ∀ (l : List ℚ) (a : ℚ),
    (l.map (fun x => x + c)).foldl min (a + c) = l.foldl min a + c
  | [], _ => rfl
  | b :: l, a => by
    rw [List.map_cons, List.foldl_cons, List.foldl_cons, min_add_add_right]
    exact foldl_min_map_add c l (min a b)

/-- Helper: a max fold commutes with adding a constant. -/
theorem foldl_max_map_add (c : ℚ) : ∀ (l : List ℚ) (a : ℚ),
    (l.map (fun x => x + c)).foldl max (a + c) = l.foldl max a + c
  | [], _ => rfl
  | b :: l, a => by
    rw [List.map_cons, List.foldl_cons, List.foldl_cons, max_add_add_right]
    exact foldl_max_map_add c l (max a b)

/-- Helper: the minimum of a shifted nonempty list is the shifted minimum. -/
theorem minList_map_add (c : ℚ) (l : List ℚ) (h : l ≠ []) :
    minList (l.map (fun x => x + c)) = minList l + c := by
  cases l with
  | nil => exact absurd rfl h
  | cons a t =>
    rw [List.map_cons, minList, minList]
    exact foldl_min_map_add c t a

/-- Helper: the maximum of a shifted nonempty list is the shifted maximum. -/
theorem maxList_map_add (c : ℚ) (l : List ℚ) (h : l ≠ []) :
    maxList (l.map (fun x => x + c)) = maxList l + c := by
  cases l with
  | nil => exact absurd rfl h
  | cons a t =>
    rw [List.map_cons, maxList, maxList]
    exact foldl_max_map_add c t a

/-- Helper: a grid over coinciding endpoints always collapses to none. -/
theorem get_grid_same_endpoints (x s ms : ℚ) : get_grid x x s ms = none := by
  simp only [get_grid]
  by_cases hs : s = 0
  · rw [if_pos hs]
  · rw [if_neg hs, show x - x = 0 by ring, zero_div, Int.ceil_zero, zero_add,
      linspace]
    rw [if_neg (by norm_num : ¬ ((1:ℤ) ≤ 0)), if_pos rfl]
    by_cases hr : 1/10000 < ms
    · rw [if_pos hr]
      rfl
    · rw [if_neg hr]

/-- Helper: the wraparound branch of get_angular_grid (shift by +180, grid,
shift back) returns exactly what the plain branch would: the +180 shift is
applied without any modulo-360 reduction, so it translates min, max and
every linspace point by the same constant, which the final -180 undoes. -/
theorem wraparound_branch_noop (data : List ℚ) (s ms : ℚ) :
    (match get_grid (minList (data.map (fun a => a + 180)))
        (maxList (data.map (fun a => a + 180))) s ms with
     | none => AngularResult.noGrid
     | some g => AngularResult.grid (g.map (fun x => x - 180))) =
    (match get_grid (minList data) (maxList data) s ms with
     | none => AngularResult.noGrid
     | some g => AngularResult.grid g) := by
  cases data with
  | nil =>
    simp only [List.map_nil, minList, maxList, get_grid_same_endpoints]
  | cons a t =>
    rw [minList_map_add 180 (a :: t) (by simp), maxList_map_add 180 (a :: t) (by simp),
      get_grid_add_180]
    cases get_grid (minList (a :: t)) (maxList (a :: t)) s ms with
    | none => rfl
    | some g =>
      show AngularResult.grid ((g.map (fun x => x + 180)).map (fun x => x - 180)) =
        AngularResult.grid g
      rw [List.map_map]
      have hid : ((fun x => x - 180) ∘ fun x : ℚ => x + 180) = id := by
        funext x
        simp only [Function.comp_apply, id_eq]
        ring
      rw [hid, List.map_id]

/-- The grid get_angular_grid returns on [359, 1, 358, 2] with spacing 60
and minimum spacing 25: seven points from 1 to 359 covering the whole
circle. -/
def gC4 : List ℚ :=
  [1, 606667/10000, 1203333/10000, 180, 2396667/10000, 2993333/10000, 359]

/-- C4: the wraparound handling of get_angular_grid is a no-op (the +180
shift is never reduced modulo 360, so it cancels exactly against the final
-180 for every input), and on the wraparound data [359, 1, 358, 2] with
spacing 60 and minimum spacing 25 the returned grid equals the plain
linear grid on [1, 359]: seven points spanning 358 degrees although the
circular spread of the data is only 4 degrees. -/
theorem angular_grid_wraparound_spurious_span :
    (∀ (data : List ℚ) (s ms : ℚ),
      (match get_grid (minList (data.map (fun a => a + 180)))
          (maxList (data.map (fun a => a + 180))) s ms with
       | none => AngularResult.noGrid
       | some g => AngularResult.grid (g.map (fun x => x - 180))) =
      (match get_grid (minList data) (maxList data) s ms with
       | none => AngularResult.noGrid
       | some g => AngularResult.grid g))
    ∧ get_angular_grid [359, 1, 358, 2] 60 25 false = .grid gC4
    ∧ get_grid 1 359 60 25 = some gC4
    ∧ maxList gC4 - minList gC4 = 358 := by
  have hplain : get_grid 1 359 60 25 = some gC4 := by
    have hceil : ⌈((359:ℚ) - 1) / 60⌉ = (6:ℤ) := by
      rw [Int.ceil_eq_iff]; norm_num
    have hlin : linspace 1 359 ((6:ℤ) + 1) =
        [1, 182/3, 361/3, 180, 719/3, 898/3, 359] := by
      rw [linspace, if_neg (by norm_num), if_neg (by norm_num)]
      rw [show ((6:ℤ) + 1).toNat = 7 from rfl,
        show List.range 7 = [0, 1, 2, 3, 4, 5, 6] from rfl]
      norm_num
    have hround : [(1:ℚ), 182/3, 361/3, 180, 719/3, 898/3, 359].map np_round4 =
        gC4 := by
      norm_num [List.map_cons, List.map_nil, np_round4, roundHalfEven, gC4]
    simp only [get_grid, hceil, hlin]
    rw [if_neg (by norm_num : ¬ ((60:ℚ) = 0)),
      if_pos (by norm_num : (1:ℚ)/10000 < 25), hround]
    have habs : |(606667:ℚ)/10000 - 1| = 596667/10000 := by
      rw [show (606667:ℚ)/10000 - 1 = 596667/10000 by norm_num]
      exact abs_of_nonneg (by norm_num)
    show (if |(606667:ℚ)/10000 - 1| < 25 then none else some gC4) = some gC4
    rw [if_neg (by rw [habs]; norm_num)]
  refine ⟨wraparound_branch_noop, ?_, hplain, ?_⟩
  · have hq10 : q10 [(359:ℚ), 1, 358, 2] = true := by
      norm_num [q10, List.any_cons, List.any_nil, cosDegPos, sinDegPos, degMod360]
    have hq11 : q11 [(359:ℚ), 1, 358, 2] = true := by
      norm_num [q11, List.any_cons, List.any_nil, cosDegPos, sinDegNeg, degMod360]
    have hq00 : q00 [(359:ℚ), 1, 358, 2] = false := by
      norm_num [q00, List.any_cons, List.any_nil, cosDegNeg, sinDegPos, degMod360]
    have hq01 : q01 [(359:ℚ), 1, 358, 2] = false := by
      norm_num [q01, List.any_cons, List.any_nil, cosDegNeg, sinDegNeg, degMod360]
    have hqs : quadrantsSum [(359:ℚ), 1, 358, 2] = 2 := by
      rw [quadrantsSum, hq10, hq11, hq00, hq01]
      rfl
    have hmap : ([(359:ℚ), 1, 358, 2].map (fun a => a + 180)) =
        [539, 181, 538, 182] := by
      norm_num
    have hmin : minList [(539:ℚ), 181, 538, 182] = 181 := by
      norm_num [minList, List.foldl_cons, List.foldl_nil, min_def]
    have hmax : maxList [(539:ℚ), 181, 538, 182] = 539 := by
      norm_num [maxList, List.foldl_cons, List.foldl_nil, max_def]
    have hgrid : get_grid 181 539 60 25 = some
        [181, 2406667/10000, 3003333/10000, 360, 4196667/10000,
          4793333/10000, 539] := by
      have hceil : ⌈((539:ℚ) - 181) / 60⌉ = (6:ℤ) := by
        rw [Int.ceil_eq_iff]; norm_num
      have hlin : linspace 181 539 ((6:ℤ) + 1) =
          [181, 722/3, 901/3, 360, 1259/3, 1438/3, 539] := by
        rw [linspace, if_neg (by norm_num), if_neg (by norm_num)]
        rw [show ((6:ℤ) + 1).toNat = 7 from rfl,
          show List.range 7 = [0, 1, 2, 3, 4, 5, 6] from rfl]
        norm_num
      have hround : [(181:ℚ), 722/3, 901/3, 360, 1259/3, 1438/3, 539].map
          np_round4 = [181, 2406667/10000, 3003333/10000, 360, 4196667/10000,
            4793333/10000, 539] := by
        norm_num [List.map_cons, List.map_nil, np_round4, roundHalfEven]
      simp only [get_grid, hceil, hlin]
      rw [if_neg (by norm_num : ¬ ((60:ℚ) = 0)),
        if_pos (by norm_num : (1:ℚ)/10000 < 25), hround]
      have habs : |(2406667:ℚ)/10000 - 181| = 596667/10000 := by
        rw [show (2406667:ℚ)/10000 - 181 = 596667/10000 by norm_num]
        exact abs_of_nonneg (by norm_num)
      show (if |(2406667:ℚ)/10000 - 181| < 25 then none
          else some [(181:ℚ), 2406667/10000, 3003333/10000, 360, 4196667/10000,
            4793333/10000, 539])
        = some [181, 2406667/10000, 3003333/10000, 360, 4196667/10000,
            4793333/10000, 539]
      rw [if_neg (by rw [habs]; norm_num)]
    simp only [get_angular_grid, Bool.false_eq_true, if_false]
    rw [if_neg (by norm_num : ¬ ((60:ℚ) = 0))]
    rw [if_pos (And.intro (by rw [hqs]; norm_num) (by norm_num : (60:ℚ) ≠ -1))]
    rw [hq10, hq11]
    rw [if_pos (show ((true && true : Bool) = true) from rfl)]
    rw [hmap, hmin, hmax, hgrid]
    show AngularResult.grid ([(181:ℚ), 2406667/10000, 3003333/10000, 360,
      4196667/10000, 4793333/10000, 539].map (fun x => x - 180)) = .grid gC4
    norm_num [List.map_cons, List.map_nil, gC4]
  · norm_num [gC4, maxList, minList, List.foldl_cons, List.foldl_nil,
      max_def, min_def]
